import Mathlib

/-!
Verification development for the SVG namespace normalizer
(`src/hummm.js`, object `SvgNamespaceNormalizer`).

The repository contains two near-duplicate variants of the normalizer:

* the first variant (lines 48-175): `hasIssue` tests for
  `xmlns:ns<digits>="http://www.w3.org/1999/xlink"`; `normalize` protects
  base64 data URLs and fragment references behind placeholder tokens,
  collects the XLink-bound numeric prefixes, rewrites `ns<N>:attr=` to
  `xlink:attr=` and `xmlns:ns<N>=` to `xmlns:xlink=`, possibly injects an
  `xmlns:xlink` declaration into the first `<svg ...>` tag, and restores
  the placeholders;
* the second variant (lines 590-706): `hasIssue` tests for `ns<digits>:`;
  `normalize` strips all numeric-prefix declarations and prefixes,
  injects missing `xmlns:xlink` / default `xmlns` declarations and cleans
  up whitespace inside tags.

Strings are embedded as `List Char`.  Each JavaScript regular expression
used by the source is hand-compiled to a deterministic prefix matcher
(`Str → Option (matched-or-replacement, rest)`); the `g`-flag scan /
`replace` loop is the generic left-to-right scanner below.  Every
backtracking possibility of the original patterns collapses: each
quantified sub-pattern is followed by a character its class excludes, so
greedy runs are maximal runs and lazy runs stop at the first terminator.
-/

namespace SvgNorm

/-- Document text, embedded as a list of characters. -/
abbrev Str := List Char

/-- Characters of a Lean string literal. -/
def strOf (s : String) : Str := s.data

/-- The double-quote character. -/
def quoteD : Char := Char.ofNat 34

/-- The single-quote character. -/
def quoteS : Char := Char.ofNat 39

/-- The backtick character (used by JavaScript `$`-substitution). -/
def btick : Char := Char.ofNat 96

/-- Is `c` one of the two quote characters of the `["']` character class? -/
def isQuote (c : Char) : Bool := c = quoteD || c = quoteS

/-- JavaScript `\s` (the WhiteSpace and LineTerminator productions). -/
def isWsC (c : Char) : Bool :=
  let n := c.toNat
  n = 9 || n = 10 || n = 11 || n = 12 || n = 13 || n = 32 || n = 160 ||
  n = 0x1680 || (0x2000 ≤ n && n ≤ 0x200a) || n = 0x2028 || n = 0x2029 ||
  n = 0x202f || n = 0x205f || n = 0x3000 || n = 0xfeff

/-- JavaScript `\d`. -/
def isDigitC (c : Char) : Bool := 48 ≤ c.toNat && c.toNat ≤ 57

/-- The `[a-zA-Z]` class. -/
def isAlphaC (c : Char) : Bool :=
  (65 ≤ c.toNat && c.toNat ≤ 90) || (97 ≤ c.toNat && c.toNat ≤ 122)

/-- The `[a-zA-Z0-9-]` class (attribute-name continuation characters). -/
def isNameC (c : Char) : Bool := isAlphaC c || isDigitC c || c = '-'

/-- ASCII lower-casing, identity elsewhere. -/
def lowerC (c : Char) : Char :=
  if 65 ≤ c.toNat && c.toNat ≤ 90 then Char.ofNat (c.toNat + 32) else c

/-- Case-insensitive character comparison as performed by the `i` flag on
the ASCII pattern characters the source uses (non-ASCII characters whose
upper-case image is ASCII do not match, per the ECMAScript canonicalizer's
ASCII barrier, and `lowerC` leaves them distinct from ASCII). -/
def eqCI (p c : Char) : Bool := lowerC p = lowerC c

/-- Case-insensitive equality of strings of equal length. -/
def ciEq : Str → Str → Bool
  | [], [] => true
  | p :: ps, c :: cs => eqCI p c && ciEq ps cs
  | _, _ => false

/-- Consume the literal `pat` from the front of `s`, case-sensitively,
returning the consumed characters and the remainder. -/
def stripCS : Str → Str → Option (Str × Str)
  | [], s => some ([], s)
  | _ :: _, [] => none
  | p :: ps, c :: cs =>
    if c = p then
      match stripCS ps cs with
      | some (u, r) => some (c :: u, r)
      | none => none
    else none

/-- Consume the literal `pat` from the front of `s`, case-insensitively,
returning the consumed characters (with their original case) and the
remainder. -/
def stripCI : Str → Str → Option (Str × Str)
  | [], s => some ([], s)
  | _ :: _, [] => none
  | p :: ps, c :: cs =>
    if eqCI p c then
      match stripCI ps cs with
      | some (u, r) => some (c :: u, r)
      | none => none
    else none

/-- Lazy `[\s\S]*?q`: everything up to and including the first occurrence
of the character `q`; `none` when `q` does not occur. -/
def takeThrough (q : Char) : Str → Option (Str × Str)
  | [] => none
  | c :: cs =>
    if c = q then some ([c], cs)
    else
      match takeThrough q cs with
      | some (a, r) => some (c :: a, r)
      | none => none

/-- Does `needle` occur as a contiguous substring (JavaScript `indexOf`
`!== -1`)? -/
def hasSub (needle : Str) : Str → Bool
  | [] => needle.isEmpty
  | c :: cs => needle.isPrefixOf (c :: cs) || hasSub needle cs

/-- Number of positions at which `needle` occurs as a substring. -/
def countSub (needle : Str) : Str → Nat
  | [] => 0
  | c :: cs => (if needle.isPrefixOf (c :: cs) then 1 else 0) + countSub needle cs

/-! ## Generic scanners

`gsub m` is JavaScript `String.prototype.replace` with a `g`-flagged
regex: at each position, if the matcher fires, emit its replacement and
continue after the match, otherwise copy one character.  `gsubFirst` is
the same without the `g` flag (first match only).  All matchers below
consume at least one character on success, so fuel `length + 1` is never
exhausted. -/

/-- One step of the global-replace scan.  The matcher returns the
replacement text and the remainder of the input after the match. -/
def gsubAux (m : Str → Option (Str × Str)) : Nat → Str → Str
  | 0, s => s
  | _ + 1, [] => []
  | f + 1, c :: cs =>
    match m (c :: cs) with
    | some (repl, rest) => repl ++ gsubAux m f rest
    | none => c :: gsubAux m f cs

/-- Global regex replace (the `g` flag). -/
def gsub (m : Str → Option (Str × Str)) (s : Str) : Str :=
  gsubAux m (s.length + 1) s

/-- First-match-only regex replace (no `g` flag). -/
def gsubFirstAux (m : Str → Option (Str × Str)) : Nat → Str → Str
  | 0, s => s
  | _ + 1, [] => []
  | f + 1, c :: cs =>
    match m (c :: cs) with
    | some (repl, rest) => repl ++ rest
    | none => c :: gsubFirstAux m f cs

/-- First-match-only regex replace (no `g` flag). -/
def gsubFirst (m : Str → Option (Str × Str)) (s : Str) : Str :=
  gsubFirstAux m (s.length + 1) s

/-- Global replace whose callback stores each match in an ordered list
and substitutes the placeholder `mk i`, where `i` is the number of
matches stored so far (the source uses `placeholders.length`). -/
def protectAux (m : Str → Option (Str × Str)) (mk : Nat → Str) :
    Nat → Str → List Str → Str × List Str
  | 0, s, acc => (s, acc)
  | _ + 1, [], acc => ([], acc)
  | f + 1, c :: cs, acc =>
    match m (c :: cs) with
    | some (mat, rest) =>
      let pr := protectAux m mk f rest (acc ++ [mat])
      (mk acc.length ++ pr.1, pr.2)
    | none =>
      let pr := protectAux m mk f cs acc
      (c :: pr.1, pr.2)

/-- Protect every match of `m` behind a placeholder, threading the store. -/
def protect (m : Str → Option (Str × Str)) (mk : Nat → Str)
    (s : Str) (acc : List Str) : Str × List Str :=
  protectAux m mk (s.length + 1) s acc

/-- `str.split(needle).join(repl)`: replace every non-overlapping
occurrence of the literal `needle`, left to right, without rescanning the
replacement. -/
def replAllLitAux (needle repl : Str) : Nat → Str → Str
  | 0, s => s
  | _ + 1, [] => []
  | f + 1, c :: cs =>
    if !needle.isEmpty && needle.isPrefixOf (c :: cs) then
      repl ++ replAllLitAux needle repl f ((c :: cs).drop needle.length)
    else c :: replAllLitAux needle repl f cs

/-- `str.split(needle).join(repl)` (the variant-1 restore operation). -/
def replAllLit (needle repl : Str) (s : Str) : Str :=
  replAllLitAux needle repl (s.length + 1) s

/-- Does the matcher fire at any position (JavaScript `RegExp.test`)? -/
def scanSome (m : Str → Option (Str × Str)) : Str → Bool
  | [] => false
  | c :: cs => (m (c :: cs)).isSome || scanSome m cs

/-! ## Matchers for the first variant's patterns -/

/-- The literal `data:image/`. -/
def litData : Str := strOf "data:image/"

/-- The literal `;base64,`. -/
def litB64 : Str := strOf ";base64,"

/-- The XLink namespace URI literal. -/
def uriXlink : Str := strOf "http://www.w3.org/1999/xlink"

/-- `/"data:image\/[^;]+;base64,[\s\S]*?"/` (and the single-quoted twin):
quote, `data:image/`, a nonempty run of non-semicolons, `;base64,`, then
lazily anything up to the next quote of the same kind.  Case-sensitive:
these two patterns carry no `i` flag in the source. -/
def mB64 (q : Char) (s : Str) : Option (Str × Str) :=
  match stripCS (q :: litData) s with
  | none => none
  | some (h, r1) =>
    let sub := r1.takeWhile (fun c => c != ';')
    let r2 := r1.dropWhile (fun c => c != ';')
    if sub.isEmpty then none
    else
      match stripCS litB64 r2 with
      | none => none
      | some (h2, r3) =>
        match takeThrough q r3 with
        | none => none
        | some (body, rest) => some (h ++ sub ++ h2 ++ body, rest)

/-- Characters allowed inside the `url(#...)` argument: `[^)"']`. -/
def urlBodyC (c : Char) : Bool := !(c = ')' || isQuote c)

/-- Tail of the `url(...)` pattern after the `#`: the argument run, an
optional closing quote, optional whitespace, and the closing paren. -/
def mUrlTail (acc : Str) (s : Str) : Option (Str × Str) :=
  let body := s.takeWhile urlBodyC
  let r1 := s.dropWhile urlBodyC
  match r1 with
  | [] => none
  | c :: r2 =>
    if c = ')' then some (acc ++ body ++ [c], r2)
    else if isQuote c then
      let w2 := r2.takeWhile isWsC
      let r3 := r2.dropWhile isWsC
      match r3 with
      | d :: r4 => if d = ')' then some (acc ++ body ++ c :: w2 ++ [d], r4) else none
      | [] => none
    else none

/-- `/url\(\s*["']?#[^)"']*["']?\s*\)/gi`. -/
def mUrl (s : Str) : Option (Str × Str) :=
  match stripCI (strOf "url(") s with
  | none => none
  | some (h, r1) =>
    let w1 := r1.takeWhile isWsC
    let r2 := r1.dropWhile isWsC
    match r2 with
    | [] => none
    | c :: r3 =>
      if isQuote c then
        match r3 with
        | hc :: r4 => if hc = '#' then mUrlTail (h ++ w1 ++ [c, hc]) r4 else none
        | [] => none
      else if c = '#' then mUrlTail (h ++ w1 ++ [c]) r3
      else none

/-- Tail `\s*=\s*["']#[^"']*["']` of the fragment-attribute pattern. -/
def mHrefTail (acc : Str) (s : Str) : Option (Str × Str) :=
  let w1 := s.takeWhile isWsC
  let r1 := s.dropWhile isWsC
  match r1 with
  | [] => none
  | c :: r2 =>
    if c = '=' then
      let w2 := r2.takeWhile isWsC
      let r3 := r2.dropWhile isWsC
      match r3 with
      | [] => none
      | q :: r4 =>
        if isQuote q then
          match r4 with
          | [] => none
          | hc :: r5 =>
            if hc = '#' then
              let body := r5.takeWhile (fun c2 => !isQuote c2)
              let r6 := r5.dropWhile (fun c2 => !isQuote c2)
              match r6 with
              | q2 :: r7 =>
                if isQuote q2 then
                  some (acc ++ w1 ++ c :: w2 ++ q :: hc :: body ++ [q2], r7)
                else none
              | [] => none
            else none
        else none
    else none

/-- The `ns\d+:href` alternative of the fragment-attribute pattern. -/
def mHrefNsAlt (s : Str) : Option (Str × Str) :=
  match stripCI (strOf "ns") s with
  | none => none
  | some (h, r1) =>
    let ds := r1.takeWhile isDigitC
    let r2 := r1.dropWhile isDigitC
    if ds.isEmpty then none
    else
      match stripCI (strOf ":href") r2 with
      | none => none
      | some (h2, r3) => mHrefTail (h ++ ds ++ h2) r3

/-- `/(xlink:href|ns\d+:href|href)\s*=\s*["']#[^"']*["']/gi`, the
alternatives tried in source order. -/
def mHref (s : Str) : Option (Str × Str) :=
  let a1 :=
    match stripCI (strOf "xlink:href") s with
    | some (h, r) => mHrefTail h r
    | none => none
  match a1 with
  | some v => some v
  | none =>
    match mHrefNsAlt s with
    | some v => some v
    | none =>
      match stripCI (strOf "href") s with
      | some (h, r) => mHrefTail h r
      | none => none

/-- `/xmlns:ns(\d+)\s*=\s*["']http:\/\/www\.w3\.org\/1999\/xlink["']/gi`:
returns the whole match, the captured digit group and the remainder. -/
def mDecl (s : Str) : Option (Str × Str × Str) :=
  match stripCI (strOf "xmlns:ns") s with
  | none => none
  | some (p, r1) =>
    let ds := r1.takeWhile isDigitC
    let r2 := r1.dropWhile isDigitC
    if ds.isEmpty then none
    else
      let w1 := r2.takeWhile isWsC
      let r3 := r2.dropWhile isWsC
      match r3 with
      | [] => none
      | e :: r4 =>
        if e = '=' then
          let w2 := r4.takeWhile isWsC
          let r5 := r4.dropWhile isWsC
          match r5 with
          | [] => none
          | q1 :: r6 =>
            if isQuote q1 then
              match stripCI uriXlink r6 with
              | none => none
              | some (u, r7) =>
                match r7 with
                | q2 :: r8 =>
                  if isQuote q2 then
                    some (p ++ ds ++ w1 ++ e :: w2 ++ q1 :: u ++ [q2], ds, r8)
                  else none
                | [] => none
            else none
        else none

/-- The exec loop of step 3: collect every captured digit group. -/
def collectNsAux : Nat → Str → List Str → List Str
  | 0, _, acc => acc
  | _ + 1, [], acc => acc
  | f + 1, c :: cs, acc =>
    match mDecl (c :: cs) with
    | some (_, ds, rest) => collectNsAux f rest (acc ++ [ds])
    | none => collectNsAux f cs acc

/-- All digit groups of XLink-bound `xmlns:ns<digits>` declarations, in
document order, duplicates kept. -/
def collectNs (s : Str) : List Str := collectNsAux (s.length + 1) s []

/-- `new RegExp('\\s+ns' + N + ':([a-zA-Z][a-zA-Z0-9-]*)\\s*=', 'gi')`
with replacement `' xlink:$1='`. -/
def mAttrRw (ns : Str) (s : Str) : Option (Str × Str) :=
  let w := s.takeWhile isWsC
  let r1 := s.dropWhile isWsC
  if w.isEmpty then none
  else
    match stripCI (strOf "ns") r1 with
    | none => none
    | some (_, r2) =>
      match stripCS ns r2 with
      | none => none
      | some (_, r3) =>
        match r3 with
        | [] => none
        | c :: r4 =>
          if c = ':' then
            match r4 with
            | [] => none
            | a :: r5 =>
              if isAlphaC a then
                let nm := r5.takeWhile isNameC
                let r6 := r5.dropWhile isNameC
                let r7 := r6.dropWhile isWsC
                match r7 with
                | e :: r8 =>
                  if e = '=' then some (strOf " xlink:" ++ a :: nm ++ ['='], r8)
                  else none
                | [] => none
              else none
          else none

/-- `new RegExp('xmlns:ns' + N + '(\\s*=\\s*["\']http://www\\.w3\\.org/1999/xlink["\'])', 'gi')`
with replacement `'xmlns:xlink$1'`. -/
def mXmlnsRw (ns : Str) (s : Str) : Option (Str × Str) :=
  match stripCI (strOf "xmlns:ns") s with
  | none => none
  | some (_, r1) =>
    match stripCS ns r1 with
    | none => none
    | some (_, r2) =>
      let w1 := r2.takeWhile isWsC
      let r3 := r2.dropWhile isWsC
      match r3 with
      | [] => none
      | e :: r4 =>
        if e = '=' then
          let w2 := r4.takeWhile isWsC
          let r5 := r4.dropWhile isWsC
          match r5 with
          | [] => none
          | q1 :: r6 =>
            if isQuote q1 then
              match stripCI uriXlink r6 with
              | none => none
              | some (u, r7) =>
                match r7 with
                | q2 :: r8 =>
                  if isQuote q2 then
                    some (strOf "xmlns:xlink" ++ w1 ++ e :: w2 ++ q1 :: u ++ [q2], r8)
                  else none
                | [] => none
            else none
        else none

/-- `/<svg([^>]*)>/i` with replacement `'<svg$1' ++ inj`; `inj` carries
the injected attribute and the closing `>`. -/
def mSvgTag (inj : Str) (s : Str) : Option (Str × Str) :=
  match stripCI (strOf "<svg") s with
  | none => none
  | some (_, r1) =>
    let body := r1.takeWhile (fun c => c != '>')
    let r2 := r1.dropWhile (fun c => c != '>')
    match r2 with
    | g :: r3 => if g = '>' then some (strOf "<svg" ++ body ++ inj, r3) else none
    | [] => none

/-! ## The first variant -/

/-- Decimal digit characters of `n`. -/
def natStr (n : Nat) : Str := Nat.toDigits 10 n

/-- The `i`-th base64 placeholder token,
`'___BASE64_PLACEHOLDER_' + i + '___'`. -/
def b64Mark (i : Nat) : Str :=
  strOf "___BASE64_PLACEHOLDER_" ++ natStr i ++ strOf "___"

/-- The `i`-th fragment-reference placeholder token,
`'___IDREF_PLACEHOLDER_' + i + '___'`. -/
def idMark (i : Nat) : Str :=
  strOf "___IDREF_PLACEHOLDER_" ++ natStr i ++ strOf "___"

/-- Restore loop: for each stored span, in index order, replace every
occurrence of its placeholder token by the stored text (split/join). -/
def restoreAll (mk : Nat → Str) (stored : List Str) (s : Str) : Str :=
  stored.enum.foldl (fun t pr => replAllLit (mk pr.1) pr.2 t) s

/-- The injected `<svg>` attribute text of step 6, with the closing `>`. -/
def injXlink : Str := strOf " xmlns:xlink=\"http://www.w3.org/1999/xlink\">"

/-- The declaration matcher with the captured digit group dropped (the
shape used by `hasIssue`, which only tests). -/
def mDeclT (s : Str) : Option (Str × Str) :=
  (mDecl s).map (fun v => (v.1, v.2.2))

/-- `SvgNamespaceNormalizer.hasIssue` (first variant, lines 48-54):
test for `/xmlns:ns\d+\s*=\s*["']http:\/\/www\.w3\.org\/1999\/xlink["']/i`,
after the falsy-input guard. -/
def hasIssue (s : Str) : Bool :=
  if s.isEmpty then false else scanSome mDeclT s

/-- Steps 1-2 of `normalize` (first variant): the protected text and the
two placeholder stores (base64 spans, then fragment-reference spans). -/
def protectStage (s : Str) : Str × List Str × List Str :=
  let p1 := protect (mB64 quoteD) b64Mark s []
  let p2 := protect (mB64 quoteS) b64Mark p1.1 p1.2
  let p3 := protect mUrl idMark p2.1 []
  let p4 := protect mHref idMark p3.1 p3.2
  (p4.1, p2.2, p4.2)

/-- The XLink-bound numeric prefixes `normalize` collects in step 3
(on the protected text). -/
def collectedPrefixes (s : Str) : List Str := collectNs (protectStage s).1

/-- `SvgNamespaceNormalizer.normalize` (first variant, lines 69-175). -/
def normalize (s : Str) : Str :=
  if s.isEmpty then s
  else
    let st := protectStage s
    let r4 := st.1
    let b64s := st.2.1
    let ids := st.2.2
    let ps := collectNs r4
    if ps.isEmpty then restoreAll b64Mark b64s (restoreAll idMark ids r4)
    else
      let r5 := ps.foldl (fun t n => gsub (mAttrRw n) t) r4
      let r6 := ps.foldl (fun t n => gsub (mXmlnsRw n) t) r5
      let r7 :=
        if hasSub (strOf "xlink:href") r6 && !hasSub (strOf "xmlns:xlink") r6 then
          gsubFirst (mSvgTag injXlink) r6
        else r6
      restoreAll b64Mark b64s (restoreAll idMark ids r7)

/-! ## The second variant (lines 590-706) -/

/-- `/ns\d+:/i` (second variant's `hasIssue` pattern). -/
def mNsColon (s : Str) : Option (Str × Str) :=
  match stripCI (strOf "ns") s with
  | none => none
  | some (h, r1) =>
    let ds := r1.takeWhile isDigitC
    let r2 := r1.dropWhile isDigitC
    if ds.isEmpty then none
    else
      match r2 with
      | c :: r3 => if c = ':' then some (h ++ ds ++ [c], r3) else none
      | [] => none

/-- `SvgNamespaceNormalizer.hasIssue` (second variant, lines 590-596). -/
def hasIssue2 (s : Str) : Bool :=
  if s.isEmpty then false else scanSome mNsColon s

/-- `/"data:image\/[^;]+;base64,[^"]*"/` (second variant's base64
pattern): a maximal run of non-quotes followed by the closing quote is
the same span as the first variant's lazy run up to the first quote. -/
def mB64V2 (q : Char) (s : Str) : Option (Str × Str) :=
  match stripCS (q :: litData) s with
  | none => none
  | some (h, r1) =>
    let sub := r1.takeWhile (fun c => c != ';')
    let r2 := r1.dropWhile (fun c => c != ';')
    if sub.isEmpty then none
    else
      match stripCS litB64 r2 with
      | none => none
      | some (h2, r3) =>
        let body := r3.takeWhile (fun c => c != q)
        let r4 := r3.dropWhile (fun c => c != q)
        match r4 with
        | c :: r5 => if c = q then some (h ++ sub ++ h2 ++ body ++ [c], r5) else none
        | [] => none

/-- `/\s*xmlns:ns\d+\s*=\s*["'][^"']*["']/gi` with replacement `''`. -/
def mDeclRm (s : Str) : Option (Str × Str) :=
  let r0 := s.dropWhile isWsC
  match stripCI (strOf "xmlns:ns") r0 with
  | none => none
  | some (_, r1) =>
    let ds := r1.takeWhile isDigitC
    let r2 := r1.dropWhile isDigitC
    if ds.isEmpty then none
    else
      let r3 := r2.dropWhile isWsC
      match r3 with
      | [] => none
      | e :: r4 =>
        if e = '=' then
          let r5 := r4.dropWhile isWsC
          match r5 with
          | [] => none
          | q1 :: r6 =>
            if isQuote q1 then
              let r7 := r6.dropWhile (fun c => !isQuote c)
              match r7 with
              | q2 :: r8 => if isQuote q2 then some ([], r8) else none
              | [] => none
            else none
        else none

/-- `/<(\/?)\s*ns\d+:/gi` with replacement `'<$1'`. -/
def mTagStrip (s : Str) : Option (Str × Str) :=
  match s with
  | [] => none
  | c :: r0 =>
    if c = '<' then
      let pr :=
        match r0 with
        | d :: r1a => if d = '/' then (([d] : Str), r1a) else (([] : Str), r0)
        | [] => (([] : Str), r0)
      let r2 := pr.2.dropWhile isWsC
      match stripCI (strOf "ns") r2 with
      | none => none
      | some (_, r3) =>
        let ds := r3.takeWhile isDigitC
        let r4 := r3.dropWhile isDigitC
        if ds.isEmpty then none
        else
          match r4 with
          | co :: r5 => if co = ':' then some ('<' :: pr.1, r5) else none
          | [] => none
    else none

/-- `/\s+ns\d+:([a-zA-Z][a-zA-Z0-9-]*)\s*=/gi` with replacement `' $1='`
(strip any numeric prefix from an attribute). -/
def mAttrStrip (s : Str) : Option (Str × Str) :=
  let w := s.takeWhile isWsC
  let r1 := s.dropWhile isWsC
  if w.isEmpty then none
  else
    match stripCI (strOf "ns") r1 with
    | none => none
    | some (_, r2) =>
      let ds := r2.takeWhile isDigitC
      let r3 := r2.dropWhile isDigitC
      if ds.isEmpty then none
      else
        match r3 with
        | [] => none
        | c :: r4 =>
          if c = ':' then
            match r4 with
            | [] => none
            | a :: r5 =>
              if isAlphaC a then
                let nm := r5.takeWhile isNameC
                let r6 := r5.dropWhile isNameC
                let r7 := r6.dropWhile isWsC
                match r7 with
                | e :: r8 =>
                  if e = '=' then some (' ' :: a :: nm ++ ['='], r8) else none
                | [] => none
              else none
          else none

/-- Is there a run of at least two consecutive whitespace characters? -/
def twoWs : Str → Bool
  | a :: b :: t => (isWsC a && isWsC b) || twoWs (b :: t)
  | _ => false

/-- `match.replace(/\s{2,}/g, ' ')`: collapse each maximal whitespace run
of length at least two to a single space. -/
def collapseWsAux : Nat → Str → Str
  | 0, s => s
  | _ + 1, [] => []
  | f + 1, c :: cs =>
    if isWsC c then
      let run := (c :: cs).takeWhile isWsC
      let rest := (c :: cs).dropWhile isWsC
      if 2 ≤ run.length then ' ' :: collapseWsAux f rest
      else c :: collapseWsAux f cs
    else c :: collapseWsAux f cs

/-- `match.replace(/\s{2,}/g, ' ')`. -/
def collapseWs (s : Str) : Str := collapseWsAux (s.length + 1) s

/-- `/(<[^>]*?)\s{2,}([^>]*>)/g` with the collapsing callback: from a `<`
through the first following `>`, provided at least two consecutive
whitespace characters occur in between (no part of the pattern may cross
a `>`). -/
def mWs2 (s : Str) : Option (Str × Str) :=
  match s with
  | [] => none
  | c :: r0 =>
    if c = '<' then
      let pre := r0.takeWhile (fun x => x != '>')
      let r1 := r0.dropWhile (fun x => x != '>')
      match r1 with
      | g :: r2 =>
        if g = '>' && twoWs pre then some (collapseWs ('<' :: pre ++ [g]), r2)
        else none
      | [] => none
    else none

/-- `/\s+>/g` with replacement `'>'`. -/
def mWsGt (s : Str) : Option (Str × Str) :=
  let w := s.takeWhile isWsC
  if w.isEmpty then none
  else
    match s.dropWhile isWsC with
    | g :: r => if g = '>' then some (['>'], r) else none
    | [] => none

/-- `/<\s+/g` with replacement `'<'`. -/
def mLtWs (s : Str) : Option (Str × Str) :=
  match s with
  | [] => none
  | c :: r0 =>
    if c = '<' then
      let w := r0.takeWhile isWsC
      if w.isEmpty then none else some (['<'], r0.dropWhile isWsC)
    else none

/-- ECMAScript GetSubstitution for a string-valued search pattern (no
capture groups): `$$`, `$&`, backtick and quote forms are active, every
other `$`-sequence is literal text. -/
def dollarSubAux (mat bef aft : Str) : Nat → Str → Str
  | 0, r => r
  | _ + 1, [] => []
  | f + 1, c :: cs =>
    if c = '$' then
      match cs with
      | [] => [c]
      | d :: ds =>
        if d = '$' then '$' :: dollarSubAux mat bef aft f ds
        else if d = '&' then mat ++ dollarSubAux mat bef aft f ds
        else if d = btick then bef ++ dollarSubAux mat bef aft f ds
        else if d = quoteS then aft ++ dollarSubAux mat bef aft f ds
        else c :: dollarSubAux mat bef aft f (d :: ds)
    else c :: dollarSubAux mat bef aft f cs

/-- ECMAScript GetSubstitution for a string pattern. -/
def dollarSub (mat bef aft repl : Str) : Str :=
  dollarSubAux mat bef aft (repl.length + 1) repl

/-- Split around the first occurrence of the literal `needle`. -/
def splitFirstAux (needle : Str) : Nat → Str → Option (Str × Str)
  | 0, _ => none
  | _ + 1, [] => none
  | f + 1, c :: cs =>
    if !needle.isEmpty && needle.isPrefixOf (c :: cs) then
      some ([], (c :: cs).drop needle.length)
    else
      match splitFirstAux needle f cs with
      | some (a, b) => some (c :: a, b)
      | none => none

/-- `str.replace(needle, repl)` with a string-valued pattern: first
occurrence only, `$`-substitution applied to `repl` (the second variant's
restore loop uses this, unlike the first variant's split/join). -/
def replFirstJS (needle repl : Str) (s : Str) : Str :=
  match splitFirstAux needle (s.length + 1) s with
  | none => s
  | some (a, b) => a ++ dollarSub needle a b repl ++ b

/-- The default-namespace declaration needle, double-quoted. -/
def svgNsD : Str := strOf "xmlns=\"http://www.w3.org/2000/svg\""

/-- The default-namespace declaration needle, single-quoted. -/
def svgNsS : Str :=
  strOf "xmlns=" ++ quoteS :: strOf "http://www.w3.org/2000/svg" ++ [quoteS]

/-- The injected default-namespace attribute of the second variant's
step 6, with the closing `>`. -/
def injDefault : Str := strOf " xmlns=\"http://www.w3.org/2000/svg\">"

/-- `SvgNamespaceNormalizer.normalize` (second variant, lines 613-706). -/
def normalize2 (s : Str) : Str :=
  if s.isEmpty then s
  else
    let p1 := protect (mB64V2 quoteD) b64Mark s []
    let p2 := protect (mB64V2 quoteS) b64Mark p1.1 p1.2
    let r2 := p2.1
    let bs := p2.2
    let ps := collectNs r2
    let r3 := gsub mDeclRm r2
    let r4 := gsub mTagStrip r3
    let r5 := ps.foldl (fun t n => gsub (mAttrRw n) t) r4
    let r6 := gsub mAttrStrip r5
    let r7 :=
      if hasSub (strOf "xlink:href") r6 && !hasSub (strOf "xmlns:xlink") r6 then
        gsubFirst (mSvgTag injXlink) r6
      else r6
    let r8 :=
      if !hasSub svgNsD r7 && !hasSub svgNsS r7 then
        gsubFirst (mSvgTag injDefault) r7
      else r7
    let r9 := gsub mWs2 r8
    let r10 := gsub mWsGt r9
    let r11 := gsub mLtWs r10
    bs.enum.foldl (fun t pr => replFirstJS (b64Mark pr.1) pr.2 t) r11

/-! ## Specification-side predicate for claim C5

Written from the claim's words: an attribute declaration of the shape
`xmlns:ns<digits>="http://www.w3.org/1999/xlink"`, case-insensitive, with
either single or double quotes.  Two readings are fixed here, both taken
from the claim's phrase "attribute declaration": XML attribute
declarations permit whitespace around the equals sign, so the shape
allows it; and each of the two quote positions is "either single or
double" independently. -/

/-- A string that is an XLink-binding numeric-prefix namespace
declaration, as described by the claim. -/
def specDecl (m : Str) : Prop :=
  ∃ p ds w1 w2 q1 u q2,
    ciEq (strOf "xmlns:ns") p = true ∧
    ds ≠ [] ∧ ds.all isDigitC = true ∧
    w1.all isWsC = true ∧ w2.all isWsC = true ∧
    isQuote q1 = true ∧ isQuote q2 = true ∧
    ciEq uriXlink u = true ∧
    m = p ++ ds ++ w1 ++ '=' :: w2 ++ q1 :: u ++ [q2]

/-! ## Concrete inputs used by the claim theorems -/

/-- An input whose second fragment-reference span is spelled exactly like
the protector's own placeholder token for index 1. -/
def c1Input : Str := strOf "url(#___IDREF_PLACEHOLDER_1___) url(#a)"

/-- The first protected span of `c1Input`. -/
def c1Span : Str := strOf "url(#___IDREF_PLACEHOLDER_1___)"

/-- The input of the spec's prefix-rewrite test vector. -/
def c2Input : Str :=
  strOf "<image xmlns:ns1=\"http://www.w3.org/1999/xlink\" ns1:href=\"data:image/png;base64,AAAA\"/>"

/-- An input on which one pass of `normalize` produces a text that a
second pass scrambles further. -/
def c3Input : Str := strOf "url(#___IDREF_PLACEHOLDER_1___) ___IDREF_PLACEHOLDER_0___"

/-- A clean input (no XLink-bound numeric prefix) containing naturally
occurring placeholder-shaped text. -/
def c4Input : Str := strOf "url(#a) ___IDREF_PLACEHOLDER_0___"

/-- An input declaring two distinct XLink-bound numeric prefixes. -/
def c6Input : Str :=
  strOf "<svg xmlns:ns1=\"http://www.w3.org/1999/xlink\" xmlns:ns2=\"http://www.w3.org/1999/xlink\"/>"

/-- An input declaring a single XLink-bound numeric prefix used by two
attributes. -/
def c6Single : Str :=
  strOf "<svg xmlns:ns1=\"http://www.w3.org/1999/xlink\"><use ns1:href=\"data:image/png;base64,AA\" ns1:show=\"new\"/></svg>"

/-- An input with `xlink:href`, no `xmlns:xlink` declaration and an
`<svg>` opening tag, but no XLink-bound numeric prefix. -/
def c7Input : Str := strOf "<svg><use xlink:href=\"http://e/x\"/></svg>"

/-- An input with a numeric prefix bound to a non-XLink URI, plus
naturally occurring placeholder-shaped text. -/
def c8Input : Str :=
  strOf "<g xmlns:ns2=\"urn:x\" ns2:a=\"b\"/> url(#c) ___IDREF_PLACEHOLDER_0___"

/-- An input containing the base64 placeholder token for index 0 as
natural text, next to a genuine base64 data URL. -/
def c9Input : Str :=
  strOf "url(#z) ___BASE64_PLACEHOLDER_0___ \"data:image/png;base64,QQ\""

/-- An input with a numeric-prefix attribute not bound to XLink, on
which the two variants disagree. -/
def c10Input : Str := strOf "<svg xmlns:ns2=\"urn:x\" ns2:a=\"b\"></svg>"

/-! ## Helper lemmas for the detector characterization (claim C5) -/

/-- A successful case-insensitive strip decomposes its input and the
consumed text matches the pattern case-insensitively. -/
theorem stripCI_sound : ∀ (pat s p r : Str),
    stripCI pat s = some (p, r) → s = p ++ r ∧ ciEq pat p = true := by
  intro pat
  induction pat with
  | nil =>
    intro s p r h
    simp [stripCI] at h
    obtain ⟨h1, h2⟩ := h
    subst h1; subst h2
    simp [ciEq]
  | cons x xs ih =>
    intro s p r h
    cases s with
    | nil => simp [stripCI] at h
    | cons c cs =>
      simp only [stripCI] at h
      by_cases he : eqCI x c = true
      · rw [if_pos he] at h
        cases hrec : stripCI xs cs with
        | none => rw [hrec] at h; simp at h
        | some pr =>
          obtain ⟨u, r2⟩ := pr
          rw [hrec] at h
          simp at h
          obtain ⟨h1, h2⟩ := h
          obtain ⟨hs, hc⟩ := ih cs u r2 hrec
          subst h2
          constructor
          · rw [← h1]; simp [hs]
          · rw [← h1]; simp [ciEq, he, hc]
      · rw [if_neg he] at h; simp at h

/-- A case-insensitive strip succeeds on any text beginning with a
case-insensitive copy of the pattern. -/
theorem stripCI_complete : ∀ (pat p : Str), ciEq pat p = true →
    ∀ r, stripCI pat (p ++ r) = some (p, r) := by
  intro pat
  induction pat with
  | nil =>
    intro p hp r
    cases p with
    | nil => simp [stripCI]
    | cons c cs => simp [ciEq] at hp
  | cons x xs ih =>
    intro p hp r
    cases p with
    | nil => simp [ciEq] at hp
    | cons c cs =>
      simp only [ciEq, Bool.and_eq_true] at hp
      obtain ⟨h1, h2⟩ := hp
      simp [stripCI, h1, ih cs h2 r]

/-- Splitting `takeWhile`/`dropWhile` over an append whose left part
satisfies the predicate and whose right part starts with a failing
character. -/
theorem takeWhile_append_eq (f : Char → Bool) :
    ∀ (a b : Str), a.all f = true → (∀ c, b.head? = some c → f c = false) →
      (a ++ b).takeWhile f = a ∧ (a ++ b).dropWhile f = b := by
  intro a
  induction a with
  | nil =>
    intro b _ hb
    cases b with
    | nil => simp [List.takeWhile, List.dropWhile]
    | cons c t => simp [List.takeWhile, List.dropWhile, hb c rfl]
  | cons x xs ih =>
    intro b ha hb
    simp only [List.all_cons, Bool.and_eq_true] at ha
    have h2 := ih b ha.2 hb
    simp [List.takeWhile, List.dropWhile, ha.1, h2.1, h2.2]

/-- Whitespace characters are not digits. -/
theorem wsNotDigit {c : Char} (h : isWsC c = true) : isDigitC c = false := by
  simp [isWsC] at h
  simp [isDigitC]
  omega

/-- Quote characters are not whitespace. -/
theorem quoteNotWs {c : Char} (h : isQuote c = true) : isWsC c = false := by
  simp [isQuote] at h
  rcases h with h | h <;> subst h <;> decide

/-- The head of `w ++ d :: y` fails `f` when every character of `w` lies
in a class disjoint from `f` and `d` fails `f`. -/
theorem headNotAux {f g : Char → Bool} {w y : Str} {d : Char}
    (hw : w.all g = true) (hgf : ∀ c, g c = true → f c = false) (hd : f d = false) :
    ∀ c, (w ++ d :: y).head? = some c → f c = false := by
  intro c hc
  cases w with
  | nil => simp at hc; subst hc; exact hd
  | cons x xs =>
    simp at hc
    subst hc
    simp [List.all_cons] at hw
    exact hgf x hw.1

/-- Soundness of the declaration matcher: a match decomposes the input
and the matched text has the declaration shape. -/
theorem mDecl_sound {s m ds rest : Str}
    (h : mDecl s = some (m, ds, rest)) : s = m ++ rest ∧ specDecl m := by
  unfold mDecl at h
  cases hp : stripCI (strOf "xmlns:ns") s with
  | none => rw [hp] at h; simp at h
  | some pr =>
    obtain ⟨p, r1⟩ := pr
    rw [hp] at h
    dsimp only at h
    by_cases hne : (r1.takeWhile isDigitC).isEmpty = true
    · rw [if_pos hne] at h; simp at h
    · rw [if_neg hne] at h
      cases hr3 : (r1.dropWhile isDigitC).dropWhile isWsC with
      | nil => rw [hr3] at h; simp at h
      | cons e r4 =>
        rw [hr3] at h
        dsimp only at h
        by_cases he : e = '='
        · rw [if_pos he] at h
          cases hr5 : r4.dropWhile isWsC with
          | nil => rw [hr5] at h; simp at h
          | cons q1 r6 =>
            rw [hr5] at h
            dsimp only at h
            by_cases hq1 : isQuote q1 = true
            · rw [if_pos hq1] at h
              cases hu : stripCI uriXlink r6 with
              | none => rw [hu] at h; simp at h
              | some pru =>
                obtain ⟨u, r7⟩ := pru
                rw [hu] at h
                dsimp only at h
                cases hr7 : r7 with
                | nil => rw [hr7] at h; simp at h
                | cons q2 r8 =>
                  rw [hr7] at h
                  dsimp only at h
                  by_cases hq2 : isQuote q2 = true
                  · rw [if_pos hq2] at h
                    simp only [Option.some.injEq, Prod.mk.injEq] at h
                    obtain ⟨hm, hds, hrest⟩ := h
                    obtain ⟨hs1, hci1⟩ := stripCI_sound _ _ _ _ hp
                    obtain ⟨hs6, hci6⟩ := stripCI_sound _ _ _ _ hu
                    constructor
                    · subst hm hrest
                      rw [hs1]
                      have e1 : r1 = r1.takeWhile isDigitC ++ r1.dropWhile isDigitC :=
                        (List.takeWhile_append_dropWhile isDigitC r1).symm
                      have e2 : r1.dropWhile isDigitC =
                          (r1.dropWhile isDigitC).takeWhile isWsC ++ (e :: r4) := by
                        rw [← hr3]
                        exact (List.takeWhile_append_dropWhile isWsC _).symm
                      have e3 : r4 = r4.takeWhile isWsC ++ (q1 :: r6) := by
                        rw [← hr5]
                        exact (List.takeWhile_append_dropWhile isWsC r4).symm
                      have e4 : r6 = u ++ (q2 :: r8) := by rw [hs6, hr7]
                      calc p ++ r1
                          = p ++ (r1.takeWhile isDigitC ++ r1.dropWhile isDigitC) := by
                            rw [← e1]
                        _ = p ++ (r1.takeWhile isDigitC ++
                              ((r1.dropWhile isDigitC).takeWhile isWsC ++ (e :: r4))) := by
                            rw [← e2]
                        _ = p ++ (r1.takeWhile isDigitC ++
                              ((r1.dropWhile isDigitC).takeWhile isWsC ++
                                (e :: (r4.takeWhile isWsC ++ (q1 :: r6))))) := by
                            rw [← e3]
                        _ = p ++ (r1.takeWhile isDigitC ++
                              ((r1.dropWhile isDigitC).takeWhile isWsC ++
                                (e :: (r4.takeWhile isWsC ++
                                  (q1 :: (u ++ (q2 :: r8))))))) := by
                            rw [← e4]
                        _ = (p ++ r1.takeWhile isDigitC ++
                              (r1.dropWhile isDigitC).takeWhile isWsC ++
                              e :: r4.takeWhile isWsC ++ q1 :: u ++ [q2]) ++ r8 := by
                            simp [List.append_assoc]
                    · subst hm he
                      refine ⟨p, r1.takeWhile isDigitC,
                        (r1.dropWhile isDigitC).takeWhile isWsC,
                        r4.takeWhile isWsC, q1, u, q2, hci1, ?_, List.all_takeWhile,
                        List.all_takeWhile, List.all_takeWhile, hq1, hq2, hci6, rfl⟩
                      intro hnil
                      rw [hnil] at hne
                      simp at hne
                  · rw [if_neg hq2] at h; simp at h
            · rw [if_neg hq1] at h; simp at h
        · rw [if_neg he] at h; simp at h

/-- Completeness of the declaration matcher: it fires on any text
beginning with a declaration-shaped string. -/
theorem mDecl_complete {m : Str} (h : specDecl m) (b : Str) :
    ∃ ds, mDecl (m ++ b) = some (m, ds, b) := by
  obtain ⟨p, ds, w1, w2, q1, u, q2, hci1, hdsne, hdsall, hw1, hw2, hq1, hq2, hciu, hm⟩ := h
  refine ⟨ds, ?_⟩
  subst hm
  have hassoc : (p ++ ds ++ w1 ++ '=' :: w2 ++ q1 :: u ++ [q2]) ++ b
      = p ++ (ds ++ (w1 ++ ('=' :: (w2 ++ (q1 :: (u ++ (q2 :: b))))))) := by
    simp [List.append_assoc]
  rw [hassoc]
  unfold mDecl
  rw [stripCI_complete _ _ hci1]
  dsimp only
  have hdig := takeWhile_append_eq isDigitC ds
      (w1 ++ ('=' :: (w2 ++ (q1 :: (u ++ (q2 :: b)))))) hdsall
      (headNotAux hw1 (fun c hc => wsNotDigit hc) (by decide))
  rw [hdig.1, hdig.2]
  have hne2 : ¬ ((ds : Str).isEmpty = true) := by
    cases ds with
    | nil => exact absurd rfl hdsne
    | cons c t => simp [List.isEmpty]
  rw [if_neg hne2]
  have hws1 := takeWhile_append_eq isWsC w1 ('=' :: (w2 ++ (q1 :: (u ++ (q2 :: b))))) hw1
      (fun c hc => by simp at hc; subst hc; decide)
  rw [hws1.1, hws1.2]
  dsimp only
  rw [if_pos rfl]
  have hws2 := takeWhile_append_eq isWsC w2 (q1 :: (u ++ (q2 :: b))) hw2
      (fun c hc => by simp at hc; subst hc; exact quoteNotWs hq1)
  rw [hws2.1, hws2.2]
  dsimp only
  rw [if_pos hq1]
  rw [stripCI_complete _ _ hciu]
  dsimp only
  rw [if_pos hq2]

/-- A declaration-shaped string is nonempty. -/
theorem specDecl_ne_nil {m : Str} (h : specDecl m) : m ≠ [] := by
  obtain ⟨p, ds, w1, w2, q1, u, q2, _, _, _, _, _, _, _, _, hm⟩ := h
  intro hnil
  rw [hm] at hnil
  simp at hnil

/-- The test scan fires whenever the matcher fires at some position. -/
theorem scanSome_mDeclT_of (a m b : Str) (hm : m ≠ [])
    (hd : (mDeclT (m ++ b)).isSome = true) :
    scanSome mDeclT (a ++ (m ++ b)) = true := by
  induction a with
  | nil =>
    cases hmb : m ++ b with
    | nil =>
      cases m with
      | nil => exact absurd rfl hm
      | cons c cs => simp at hmb
    | cons c cs =>
      rw [hmb] at hd
      simp only [List.nil_append]
      simp [scanSome, hd]
  | cons x xs ih =>
    simp only [List.cons_append]
    simp [scanSome, ih]

/-- If the test scan fires, the input contains a declaration-shaped
substring. -/
theorem scanSome_mDeclT_sound : ∀ s, scanSome mDeclT s = true →
    ∃ a m b, s = a ++ m ++ b ∧ specDecl m := by
  intro s
  induction s with
  | nil => simp [scanSome]
  | cons c cs ih =>
    intro h
    simp only [scanSome, Bool.or_eq_true] at h
    cases h with
    | inl h1 =>
      unfold mDeclT at h1
      cases hd : mDecl (c :: cs) with
      | none => rw [hd] at h1; simp at h1
      | some v =>
        obtain ⟨m, ds, rest⟩ := v
        obtain ⟨hs, hspec⟩ := mDecl_sound hd
        exact ⟨[], m, rest, by simpa using hs, hspec⟩
    | inr h2 =>
      obtain ⟨a, m, b, hab, hspec⟩ := ih h2
      exact ⟨c :: a, m, b, by simp [hab], hspec⟩

/-! ## Claim theorems -/

set_option maxRecDepth 40000 in
/-- C1: the protected-span invariant fails on the code.  `c1Input`
contains the fragment-reference span `url(#___IDREF_PLACEHOLDER_1___)`,
whose body is spelled exactly like the protector's fixed placeholder
token for index 1.  During restoration, the split/join pass for index 1
also rewrites the occurrence restored inside this span, so the span does
not survive byte-for-byte: the output is `url(#url(#a)) url(#a)` and no
longer contains the span at all. -/
theorem c1_placeholder_collision_destroys_protected_span :
    hasSub c1Span c1Input = true ∧
    normalize c1Input = strOf "url(#url(#a)) url(#a)" ∧
    hasSub c1Span (normalize c1Input) = false := by
  decide

set_option maxRecDepth 40000 in
/-- C2: prefix rewrite correctness on the spec's test vector.  For the
input `<image xmlns:ns1="http://www.w3.org/1999/xlink"
ns1:href="data:image/png;base64,AAAA"/>` the output of `normalize`
contains `xlink:href="data:image/png;base64,AAAA"`, contains
`xmlns:xlink="http://www.w3.org/1999/xlink"`, and contains no `ns1:`
token. -/
theorem c2_prefix_rewrite_correct :
    hasSub (strOf "xlink:href=\"data:image/png;base64,AAAA\"") (normalize c2Input) = true ∧
    hasSub (strOf "xmlns:xlink=\"http://www.w3.org/1999/xlink\"") (normalize c2Input) = true ∧
    hasSub (strOf "ns1:") (normalize c2Input) = false := by
  decide

set_option maxRecDepth 40000 in
/-- C3: `normalize` is not idempotent.  On `c3Input` the first pass
restores the placeholder-shaped natural text
`___IDREF_PLACEHOLDER_0___` into a second copy of the protected span;
the second pass then protects two spans and its restoration for index 1
rewrites the placeholder-shaped text inside the first restored span, so
`normalize (normalize c3Input) ≠ normalize c3Input`. -/
theorem c3_normalize_not_idempotent :
    normalize c3Input =
      strOf "url(#___IDREF_PLACEHOLDER_1___) url(#___IDREF_PLACEHOLDER_1___)" ∧
    normalize (normalize c3Input) =
      strOf "url(#url(#___IDREF_PLACEHOLDER_1___)) url(#___IDREF_PLACEHOLDER_1___)" ∧
    normalize (normalize c3Input) ≠ normalize c3Input := by
  decide

set_option maxRecDepth 40000 in
/-- C4: `normalize` is not the identity on every input with
`hasIssue = false`.  `c4Input` has no XLink-bound numeric prefix, so the
early exit of step 4 is taken, yet the restore pass duplicates the
protected span into the naturally occurring placeholder-shaped text:
the output is `url(#a) url(#a)` and differs from the input. -/
theorem c4_normalize_not_noop_on_clean_input :
    hasIssue c4Input = false ∧
    normalize c4Input = strOf "url(#a) url(#a)" ∧
    normalize c4Input ≠ c4Input := by
  decide

/-- C5: `hasIssue` returns `true` exactly on the strings containing an
attribute declaration of the shape
`xmlns:ns<digits>="http://www.w3.org/1999/xlink"` (case-insensitive,
either quote character, whitespace permitted around the equals sign);
in particular it returns `false` on the empty string, where the
right-hand side is unsatisfiable. -/
theorem c5_hasIssue_iff_xlink_decl (s : Str) :
    hasIssue s = true ↔ ∃ a m b, s = a ++ m ++ b ∧ specDecl m := by
  constructor
  · intro h
    unfold hasIssue at h
    by_cases hs : s.isEmpty = true
    · rw [if_pos hs] at h; simp at h
    · rw [if_neg hs] at h
      exact scanSome_mDeclT_sound s h
  · rintro ⟨a, m, b, hab, hspec⟩
    have hm := specDecl_ne_nil hspec
    obtain ⟨ds, hdecl⟩ := mDecl_complete hspec b
    unfold hasIssue
    have hsne : ¬ (s.isEmpty = true) := by
      rw [hab]
      cases a with
      | nil =>
        cases m with
        | nil => exact absurd rfl hm
        | cons c cs => simp
      | cons c cs => simp
    rw [if_neg hsne]
    rw [hab, List.append_assoc]
    refine scanSome_mDeclT_of a m b hm ?_
    unfold mDeclT
    rw [hdecl]
    simp

set_option maxRecDepth 40000 in
/-- C6 counterexample: the output does not declare the XLink namespace
at most once.  `c6Input` binds two numeric prefixes to the XLink URI, so
the early exit is not taken, and step 5 rewrites both declarations,
leaving two `xmlns:xlink="http://www.w3.org/1999/xlink"` declarations in
the output. -/
theorem c6_two_decls_counterexample :
    collectedPrefixes c6Input ≠ [] ∧
    countSub (strOf "xmlns:xlink=\"http://www.w3.org/1999/xlink\"") (normalize c6Input) = 2 := by
  decide

set_option maxRecDepth 40000 in
/-- C6 amended: when the early exit is not taken, every collected
declaration is rewritten to `xmlns:xlink` (one output declaration per
collected declaration, so "at most once" holds only when at most one was
present) and the collected prefix's attributes are rewritten to the
canonical `xlink:` prefix.  On `c6Single` (one bound prefix, two bound
attributes) the output carries `xlink:href`, `xlink:show`, exactly one
`xmlns:xlink`, and no `ns1:` token. -/
theorem c6_decl_rewrite_amended :
    collectedPrefixes c6Single ≠ [] ∧
    normalize c6Single =
      strOf "<svg xmlns:xlink=\"http://www.w3.org/1999/xlink\"><use xlink:href=\"data:image/png;base64,AA\" xlink:show=\"new\"/></svg>" ∧
    countSub (strOf "xmlns:xlink") (normalize c6Single) = 1 ∧
    hasSub (strOf "ns1:") (normalize c6Single) = false := by
  decide

set_option maxRecDepth 40000 in
/-- C7 counterexample: `c7Input` contains `xlink:href`, contains no
`xmlns:xlink` declaration, and has an `<svg>` opening tag, yet
`normalize` returns it unchanged: no XLink-bound numeric prefix is
collected, so step 4's early exit returns before the injection step, and
the output gains no `xmlns:xlink` attribute. -/
theorem c7_no_injection_counterexample :
    hasSub (strOf "xlink:href") c7Input = true ∧
    hasSub (strOf "xmlns:xlink") c7Input = false ∧
    hasSub (strOf "<svg") c7Input = true ∧
    normalize c7Input = c7Input ∧
    countSub (strOf "xmlns:xlink") (normalize c7Input) = 0 := by
  decide

set_option maxRecDepth 40000 in
/-- C7 amended: in the first variant the injection step is only reached
when a prefix was collected, in which case step 5 has already produced
an `xmlns:xlink` declaration, so on an input like `c7Input` the first
variant returns its input unchanged; the claimed injection behavior is
that of the second variant, whose output on `c7Input` gains
`xmlns:xlink="http://www.w3.org/1999/xlink"` exactly once, inserted on
the first `<svg ...>` tag immediately before its closing `>`. -/
theorem c7_injection_amended :
    normalize c7Input = c7Input ∧
    normalize2 c7Input =
      strOf "<svg xmlns:xlink=\"http://www.w3.org/1999/xlink\" xmlns=\"http://www.w3.org/2000/svg\"><use xlink:href=\"http://e/x\"/></svg>" ∧
    countSub (strOf "xmlns:xlink") (normalize2 c7Input) = 1 := by
  decide

set_option maxRecDepth 40000 in
/-- C8: the frame property fails on the code.  In `c8Input` the prefix
`ns2` is bound to a non-XLink URI and its occurrences are indeed left
unmodified, but text outside every recognized rewrite shape still
changes: the restore pass duplicates the protected `url(#c)` span into
the naturally occurring placeholder-shaped text. -/
theorem c8_frame_violated_by_placeholder_collision :
    hasSub (strOf "xmlns:ns2=\"urn:x\"") c8Input = true ∧
    countSub (strOf "ns2:") (normalize c8Input) = countSub (strOf "ns2:") c8Input ∧
    normalize c8Input = strOf "<g xmlns:ns2=\"urn:x\" ns2:a=\"b\"/> url(#c) url(#c)" ∧
    normalize c8Input ≠ c8Input := by
  decide

set_option maxRecDepth 40000 in
/-- C9: the placeholder non-collision invariant fails on the code.  The
fixed literal `___BASE64_PLACEHOLDER_0___` occurs naturally in
`c9Input`; the protect-then-restore round trip therefore rewrites that
natural text into a second copy of the protected base64 span, and the
output differs from the input even though `hasIssue` is `false`. -/
theorem c9_placeholder_collision_roundtrip_fails :
    hasIssue c9Input = false ∧
    normalize c9Input =
      strOf "url(#z) \"data:image/png;base64,QQ\" \"data:image/png;base64,QQ\"" ∧
    normalize c9Input ≠ c9Input := by
  decide

set_option maxRecDepth 40000 in
/-- C10: the two `normalize` variants are not extensionally equal.  On
`c10Input`, whose numeric prefix `ns2` is bound to a non-XLink URI, the
first variant takes its early exit and returns the input unchanged,
while the second variant strips the declaration and the prefix and
injects the default namespace. -/
theorem c10_variants_not_extensionally_equal :
    normalize c10Input = c10Input ∧
    normalize2 c10Input = strOf "<svg a=\"b\" xmlns=\"http://www.w3.org/2000/svg\"></svg>" ∧
    normalize c10Input ≠ normalize2 c10Input := by
  decide

end SvgNorm
